import Mathlib

/-!
Verification of the certman entry-configuration / credential-derivation engine
and the certificate lifecycle decision logic, as a shallow embedding of the
Python sources (certman/config.py, certman/providers.py, certman/cli.py,
certman/config_merge.py).

Modelling conventions:
- The process environment is a total function from variable names to values;
  the empty string stands for a variable that is unset or set to the empty
  string (the Python code treats both the same via falsy env.get / os.getenv).
- Optional string fields use Option String; Python truthiness of such a field
  is "present and non-empty".
- Python exceptions become Except values.
- Python string methods (strip, lower, startswith, endswith, slicing) are
  modelled on character lists so every operation is structurally recursive.
-/

namespace Certman

/-- Process environment: the empty string means unset-or-empty. -/
abbrev Env := String → String

/-- Point update of an environment. -/
def envSet (env : Env) (k v : String) : Env := fun x => if x = k then v else env x

/-- ASCII whitespace, as stripped by the Python str.strip method. -/
def isSpaceChar (c : Char) : Bool :=
  c == ' ' || c == '\t' || c == '\n' || c == '\r' || c == '\x0b' || c == '\x0c'

/-- Drop leading whitespace characters. -/
def dropWhileSpace : List Char → List Char
  | [] => []
  | c :: t => if isSpaceChar c then dropWhileSpace t else c :: t

/-- Python str.strip: remove leading and trailing whitespace. Strings are
handled at the level of their character lists so that every operation is a
plain structural recursion. -/
def pyStrip (s : String) : String :=
  ⟨(dropWhileSpace ((dropWhileSpace s.data).reverse)).reverse⟩

/-- Python str.startswith, on characters. -/
def strHasFront (p s : String) : Bool := p.data.isPrefixOf s.data

/-- Python str.endswith, on characters. -/
def strHasBack (p s : String) : Bool := p.data.reverse.isPrefixOf s.data.reverse

/-- Python value[2:-1]: drop the first two and the last character. -/
def innerSlice (s : String) : String := ⟨(s.data.drop 2).dropLast⟩

/-- ASCII lowercase conversion of one character. -/
def lowerChar (c : Char) : Char :=
  if 'A' ≤ c ∧ c ≤ 'Z' then Char.ofNat (c.toNat + 32) else c

/-- Python str.lower, on characters (ASCII range, which covers the provider
names the code compares against). -/
def pyLower (s : String) : String := ⟨s.data.map lowerChar⟩

/-- Python truthiness of an optional string field: some non-empty string. -/
def truthy : Option String → Bool
  | none => false
  | some s => s ≠ ""

/-- CredentialsConfig from config.py: optional raw credentials. -/
structure CredentialsConfig where
  access_key_id : Option String := none
  access_key_secret : Option String := none
  api_token : Option String := none
deriving DecidableEq, Repr

/-- EntryConfig from config.py. -/
structure EntryConfig where
  name : String
  description : String := ""
  primary_domain : String
  secondary_domains : List String := []
  wildcard : Bool := true
  dns_provider : String
  account_id : Option String := none
  credentials : CredentialsConfig := {}
deriving DecidableEq, Repr

/-- The credential values in the order the validator loop inspects them. -/
def credValues (c : CredentialsConfig) : List (Option String) :=
  [c.access_key_id, c.access_key_secret, c.api_token]

/-- config.py _is_env_ref. -/
def is_env_ref (value : String) : Bool :=
  strHasFront "$\x7b" value && strHasBack "\x7d" value && value.data.length > 3

/-- config.py _env_ref_key: the text between the dollar-brace and the closing
brace, stripped. -/
def env_ref_key (value : String) : String :=
  pyStrip (innerSlice value)

/-- One step of the env-ref check loop in _required_env_keys: skip falsy
values; for a reference whose variable is unset or empty, produce its key. -/
def refMissingOf (env : Env) : Option String → Option String
  | none => none
  | some s =>
      if s = "" then none
      else if is_env_ref s then
        if env (env_ref_key s) = "" then some (env_ref_key s) else none
      else none

/-- The missing referenced keys accumulated by step 1 of _required_env_keys,
in field order. -/
def missingRefKeys (c : CredentialsConfig) (env : Env) : List String :=
  (credValues c).filterMap (refMissingOf env)

/-- Whether some credential field holds a plain (non-reference) non-empty
value, as computed by _required_env_keys. -/
def hasAnyPlainCredential (c : CredentialsConfig) : Bool :=
  (truthy c.access_key_id && !is_env_ref (c.access_key_id.getD "")) ||
  (truthy c.access_key_secret && !is_env_ref (c.access_key_secret.getD "")) ||
  (truthy c.api_token && !is_env_ref (c.api_token.getD ""))

/-- The provider-convention environment key list for a provider (already
lowercased) and account id; none for an unknown provider. -/
def providerRequiredKeys (provider account : String) : Option (List String) :=
  if provider = "cloudflare" then
    some ["CERTMAN_CLOUDFLARE_" ++ account ++ "_API_TOKEN"]
  else if provider = "route53" then
    some ["CERTMAN_AWS_" ++ account ++ "_ACCESS_KEY_ID",
          "CERTMAN_AWS_" ++ account ++ "_SECRET_ACCESS_KEY",
          "CERTMAN_AWS_" ++ account ++ "_REGION"]
  else if provider = "aliyun" then
    some ["CERTMAN_ALIYUN_" ++ account ++ "_ACCESS_KEY_ID",
          "CERTMAN_ALIYUN_" ++ account ++ "_ACCESS_KEY_SECRET"]
  else none

/-- Errors of the validation layer. -/
inductive ValidationError where
  | unsupportedProvider (name : String)
  | missingEnvKeys (keys : List String)
deriving DecidableEq, Repr

/-- config.py _required_env_keys: required env keys still missing for one
entry, or the unsupported-provider error. -/
def required_env_keys (entry : EntryConfig) (env : Env) :
    Except ValidationError (List String) :=
  if missingRefKeys entry.credentials env ≠ [] ∨ hasAnyPlainCredential entry.credentials then
    .ok (missingRefKeys entry.credentials env)
  else if truthy entry.account_id = false then
    .ok []
  else
    match providerRequiredKeys (pyLower entry.dns_provider) (entry.account_id.getD "") with
    | some required => .ok (required.filter fun k => env k == "")
    | none => .error (.unsupportedProvider entry.dns_provider)

/-- The accumulation loop of AppConfig.validate_required_secrets: extend a
missing list entry by entry, propagating the first raised error. -/
def collectMissing (env : Env) : List EntryConfig → Except ValidationError (List String)
  | [] => .ok []
  | e :: rest =>
      match required_env_keys e env with
      | .error err => .error err
      | .ok m =>
          match collectMissing env rest with
          | .error err => .error err
          | .ok ms => .ok (m ++ ms)

/-- config.py AppConfig.validate_required_secrets: ok when no key is missing,
otherwise an error carrying the missing keys (the Python code formats them
sorted and deduplicated into the exception message; the carried list here is
the raw accumulation, the formatting being presentation only). -/
def validate_required_secrets (entries : List EntryConfig) (env : Env) :
    Except ValidationError Unit :=
  match collectMissing env entries with
  | .error err => .error err
  | .ok [] => .ok ()
  | .ok missing => .error (.missingEnvKeys missing)

/-! ## providers.py: the Aliyun credential resolver -/

/-- Errors of the credential resolution layer (providers.py raises ValueError
with three distinct messages). -/
inductive CredError where
  | missingEnvVar (key : String)
  | credentialConfiguration
  | missingAccountKeys (account : String)
deriving DecidableEq, Repr

/-- Resolved credential pair (providers.py AliyunCredentials). -/
structure AliyunCredentials where
  access_key_id : String
  access_key_secret : String
deriving DecidableEq, Repr

/-- providers.py _resolve_value: strip, then either dereference an env
reference (failing when the variable is unset or empty) or return the
stripped literal. -/
def resolve_value (env : Env) (value : String) : Except CredError String :=
  if strHasFront "$\x7b" (pyStrip value) && strHasBack "\x7d" (pyStrip value) then
    if env (pyStrip (innerSlice (pyStrip value))) = "" then
      .error (.missingEnvVar (pyStrip (innerSlice (pyStrip value))))
    else
      .ok (env (pyStrip (innerSlice (pyStrip value))))
  else
    .ok (pyStrip value)

/-- providers.py aliyun_credentials_for_entry. -/
def aliyun_credentials_for_entry (env : Env) (entry : EntryConfig) :
    Except CredError AliyunCredentials :=
  let creds := entry.credentials
  if truthy creds.access_key_id && truthy creds.access_key_secret then
    match resolve_value env (creds.access_key_id.getD ""),
          resolve_value env (creds.access_key_secret.getD "") with
    | .ok i, .ok s => .ok ⟨i, s⟩
    | .error e1, _ => .error e1
    | .ok _, .error e2 => .error e2
  else if truthy entry.account_id = false then
    .error .credentialConfiguration
  else
    let a := entry.account_id.getD ""
    let ak := env ("CERTMAN_ALIYUN_" ++ a ++ "_ACCESS_KEY_ID")
    let sk := env ("CERTMAN_ALIYUN_" ++ a ++ "_ACCESS_KEY_SECRET")
    if ak = "" ∨ sk = "" then .error (.missingAccountKeys a)
    else .ok ⟨ak, sk⟩

/-! ## cli.py: domains, check classification, exit code, fix planning -/

/-- The seen-set deduplication loop of cli.py _entry_domains: keep an element
when it was not seen before, in order. -/
def dedupFirstAux (seen : List String) : List String → List String
  | [] => []
  | d :: rest =>
      if d ∈ seen then dedupFirstAux seen rest
      else d :: dedupFirstAux (d :: seen) rest

/-- cli.py _entry_domains: primary domain, secondary domains, optional
wildcard domain, deduplicated preserving first occurrence. -/
def entry_domains (e : EntryConfig) : List String :=
  let domains :=
    e.primary_domain :: e.secondary_domains ++
      (if e.wildcard then ["*." ++ e.primary_domain] else [])
  dedupFirstAux [] domains

/-- Per-entry classification of the check command. -/
inductive CertState where
  | missing
  | ok
  | warn
  | forceRenew
deriving DecidableEq, Repr

/-- The exit-code weight cli.py check assigns to each classification. -/
def stateCode : CertState → Nat
  | .missing => 30
  | .ok => 0
  | .warn => 10
  | .forceRenew => 20

/-- The threshold classification of cli.py check for an existing
certificate with the given signed days_left. -/
def classify (daysLeft warnDays forceRenewDays : Int) : CertState :=
  if daysLeft ≤ forceRenewDays then .forceRenew
  else if daysLeft ≤ warnDays then .warn
  else .ok

/-- One entry of the cli.py check loop: a lookup returning none models a
missing cert.pem, some d models an existing certificate with days_left d. -/
def checkEntry (lookup : EntryConfig → Option Int) (warnDays forceRenewDays : Int)
    (e : EntryConfig) : CertState :=
  match lookup e with
  | none => .missing
  | some d => classify d warnDays forceRenewDays

/-- One iteration of the cli.py check loop: append the classification and
update worst_code. -/
def checkStep (lookup : EntryConfig → Option Int) (warnDays forceRenewDays : Int)
    (acc : List CertState × Nat) (e : EntryConfig) : List CertState × Nat :=
  let st := checkEntry lookup warnDays forceRenewDays e
  (acc.1 ++ [st], max acc.2 (stateCode st))

/-- The cli.py check loop over the target entries: the results list of
classifications together with worst_code, starting from ([], 0). -/
def checkRun (lookup : EntryConfig → Option Int) (warnDays forceRenewDays : Int)
    (entries : List EntryConfig) : List CertState × Nat :=
  entries.foldl (checkStep lookup warnDays forceRenewDays) ([], 0)

/-- The process exit code raised at the end of cli.py check. -/
def checkExitCode (lookup : EntryConfig → Option Int) (warnDays forceRenewDays : Int)
    (entries : List EntryConfig) : Nat :=
  (checkRun lookup warnDays forceRenewDays entries).2

/-- A planned remediation action of the fix flow (entry name with the chosen
command). -/
inductive FixAction where
  | issueNew (entry : String)
  | renewEntry (entry : String)
deriving DecidableEq, Repr

/-- The fix planning loop of cli.py check: missing plans a forced new,
force-renew plans a forced renew, ok and warn plan nothing, in results
order. -/
def planFixActions (results : List (String × CertState)) : List FixAction :=
  results.filterMap fun r =>
    match r.2 with
    | .missing => some (.issueNew r.1)
    | .forceRenew => some (.renewEntry r.1)
    | _ => none

/-- The fix execution loop of cli.py check, with exec a = true meaning the
new/renew call for a returned normally and false meaning it raised: the
actions whose execution was started, in order. A raise propagates out of the
loop, so the failing action is the last one started. -/
def executeFixActions (exec : FixAction → Bool) : List FixAction → List FixAction
  | [] => []
  | a :: rest => if exec a then a :: executeFixActions exec rest else [a]

/-! ## config_merge.py: merging the global config with item files

The filesystem side (globbing and parsing) is abstracted: the input is the
already-parsed global config (its entries list) plus the sorted list of files
matched by the scan glob, each as its parsed content. Untyped mappings become
RawEntry records of optional fields, with pydantic model_dump and
model_validate embedded explicitly so the dump-then-revalidate round trip of
load_merged_config stays visible.
-/

/-- An untyped single-entry mapping as read from an item file (or produced by
model_dump): each schema field optionally present. -/
structure RawEntry where
  name : Option String := none
  description : Option String := none
  primary_domain : Option String := none
  secondary_domains : Option (List String) := none
  wildcard : Option Bool := none
  dns_provider : Option String := none
  account_id : Option String := none
  credentials : Option CredentialsConfig := none
deriving DecidableEq, Repr

/-- pydantic model_dump of an EntryConfig: every field present. -/
def dumpEntry (e : EntryConfig) : RawEntry :=
  { name := some e.name
    description := some e.description
    primary_domain := some e.primary_domain
    secondary_domains := some e.secondary_domains
    wildcard := some e.wildcard
    dns_provider := some e.dns_provider
    account_id := e.account_id
    credentials := some e.credentials }

/-- Config-layer errors of the merge step. -/
inductive MergeError where
  | schemaValidation
deriving DecidableEq, Repr

/-- pydantic validation of a raw mapping into an EntryConfig: the required
fields must be present, the rest default. -/
def validateEntry (r : RawEntry) : Except MergeError EntryConfig :=
  match r.name, r.primary_domain, r.dns_provider with
  | some n, some p, some d =>
      .ok { name := n
            description := r.description.getD ""
            primary_domain := p
            secondary_domains := r.secondary_domains.getD []
            wildcard := r.wildcard.getD true
            dns_provider := d
            account_id := r.account_id
            credentials := r.credentials.getD {} }
  | _, _, _ => .error .schemaValidation

/-- Parsed content of one file matched by the scan glob. -/
inductive ItemContent where
  | fullConfig (entries : List EntryConfig)
  | singleEntry (raw : RawEntry)
deriving Repr

/-- One file matched by the scan glob: its file name and parsed content. -/
structure ItemFile where
  fileName : String
  content : ItemContent
deriving Repr

/-- config_merge.py _default_name_from_item, first the stem (file name up to
the last dot). -/
def fileStem (s : String) : String :=
  let parts := s.splitOn "."
  if parts.length ≤ 1 then s else String.intercalate "." parts.dropLast

/-- config_merge.py _default_name_from_item: strip a leading item_ marker
from the stem. -/
def default_name_from_item (fileName : String) : String :=
  let stem := fileStem fileName
  if stem.startsWith "item_" then stem.drop 5 else stem

/-- The raw entry dicts one globbed file contributes in load_merged_config:
the global file itself and example-suffixed files contribute nothing; a full
config document contributes the dump of each of its entries; a single-entry
file contributes its mapping with the name defaulted from the file name when
absent. -/
def itemRawEntries (globalName : String) (item : ItemFile) : List RawEntry :=
  if item.fileName = globalName then []
  else if item.fileName.endsWith ".example.toml" then []
  else
    match item.content with
    | .fullConfig entries => entries.map dumpEntry
    | .singleEntry raw =>
        [{ raw with name := some (raw.name.getD (default_name_from_item item.fileName)) }]

/-- config_merge.py load_merged_config, on the parsed inputs: dump the global
entries, append each item file contribution in order, then validate the whole
list back into typed entries. -/
def load_merged_config (baseEntries : List EntryConfig) (globalName : String)
    (items : List ItemFile) : Except MergeError (List EntryConfig) :=
  let raws := baseEntries.map dumpEntry ++ (items.map (itemRawEntries globalName)).flatten
  raws.mapM validateEntry

/-! ## Specification-side definitions

These follow the wording of the specification (not the code) and are compared
with the source-derived definitions in refinement theorems.
-/

/-- Spec wording: first-occurrence deduplication, written as a left fold that
appends an element only when not already present. -/
def keepFirst (l : List String) : List String :=
  l.foldl (fun acc d => if d ∈ acc then acc else acc ++ [d]) []

/-- Spec wording: classify a credential value, after stripping, as an
environment reference (returning the referenced name) or a literal. -/
def specRefKey (s : String) : Option String :=
  if strHasFront "$\x7b" (pyStrip s) && strHasBack "\x7d" (pyStrip s) then
    some (pyStrip (innerSlice (pyStrip s)))
  else none

/-- Spec wording (amended): resolve one credential field independently; a
reference looks up the named variable and fails when it is absent or empty, a
literal passes through with surrounding whitespace stripped. -/
def specResolveOne (env : Env) (s : String) : Except CredError String :=
  match specRefKey s with
  | some k => if env k = "" then .error (.missingEnvVar k) else .ok (env k)
  | none => .ok (pyStrip s)

/-- Spec wording of the resolver precedence: explicit credential pair first,
account-convention variables second, configuration error otherwise. -/
def specResolveCredentials (env : Env) (e : EntryConfig) :
    Except CredError AliyunCredentials :=
  if truthy e.credentials.access_key_id && truthy e.credentials.access_key_secret then do
    let i ← specResolveOne env (e.credentials.access_key_id.getD "")
    let s ← specResolveOne env (e.credentials.access_key_secret.getD "")
    pure ⟨i, s⟩
  else if truthy e.account_id then
    let a := e.account_id.getD ""
    let ak := env ("CERTMAN_ALIYUN_" ++ a ++ "_ACCESS_KEY_ID")
    let sk := env ("CERTMAN_ALIYUN_" ++ a ++ "_ACCESS_KEY_SECRET")
    if ak ≠ "" ∧ sk ≠ "" then pure ⟨ak, sk⟩ else .error (.missingAccountKeys a)
  else
    .error .credentialConfiguration

/-- Whether an entry, under the given environment, reaches the account-based
branch of _required_env_keys with an unknown provider: no plain credential,
no missing reference, a truthy account id, and a provider outside the known
set. -/
def accountPathUnknownProvider (env : Env) (e : EntryConfig) : Bool :=
  (missingRefKeys e.credentials env).isEmpty &&
  !hasAnyPlainCredential e.credentials &&
  truthy e.account_id &&
  (providerRequiredKeys (pyLower e.dns_provider) (e.account_id.getD "")).isNone

/-- Whether some credential field is a non-empty environment reference. -/
def hasRefCredential (c : CredentialsConfig) : Bool :=
  (credValues c).any fun v => truthy v && is_env_ref (v.getD "")

/-! ## Concrete fixtures used by witnesses and counterexamples -/

/-- The empty environment. -/
def env0 : Env := fun _ => ""

/-- An environment where only FOO is set. -/
def envFOO : Env := fun k => if k = "FOO" then "value" else ""

/-- A minimal aliyun entry named a. -/
def entryA : EntryConfig :=
  { name := "a", primary_domain := "a.test", dns_provider := "aliyun" }

/-- A minimal aliyun entry named b. -/
def entryB : EntryConfig :=
  { name := "b", primary_domain := "b.test", dns_provider := "aliyun" }

/-- An aliyun entry with only an account id. -/
def entryAcct : EntryConfig :=
  { name := "acct", primary_domain := "acct.test", dns_provider := "aliyun",
    account_id := some "A1" }

/-- An entry whose access key id is a whitespace-padded literal. -/
def entryPadded : EntryConfig :=
  { name := "p", primary_domain := "p.test", dns_provider := "aliyun",
    credentials := { access_key_id := some " padded-id ", access_key_secret := some "sec" } }

/-- An entry with an unknown dns_provider and nothing else set. -/
def entryUnknownProv : EntryConfig :=
  { name := "u", primary_domain := "u.test", dns_provider := "foo" }

/-- An entry mixing a plain literal credential, a reference credential and an
account id. -/
def entryPlainAndRef : EntryConfig :=
  { name := "m", primary_domain := "m.test", dns_provider := "aliyun",
    account_id := some "A1",
    credentials := { access_key_id := some "lit", access_key_secret := some "$\x7bFOO\x7d" } }

/-- An entry with a reference credential and an account id, no literal. -/
def entryRefOnly : EntryConfig :=
  { name := "r", primary_domain := "r.test", dns_provider := "aliyun",
    account_id := some "A1",
    credentials := { access_key_id := some "$\x7bFOO\x7d" } }

/-- A status lookup giving entry a ten remaining days and reporting every
other cert as absent. -/
def lookupAB : EntryConfig → Option Int :=
  fun e => if e.name = "a" then some 10 else none

/-- A status lookup reporting five remaining days for every entry. -/
def lookupFive : EntryConfig → Option Int := fun _ => some 5

/-- Check results where both entries need remediation. -/
def resultsCE : List (String × CertState) :=
  [("a", CertState.missing), ("b", CertState.missing)]

/-- An action executor whose every action raises. -/
def execAllFail : FixAction → Bool := fun _ => false

/-! ## Helper lemmas -/

theorem le_foldl_max (l : List Nat) (a : Nat) : a ≤ l.foldl max a := by
  induction l generalizing a with
  | nil => exact Nat.le_refl a
  | cons b t ih => exact le_trans (Nat.le_max_left a b) (ih (max a b))

theorem mem_le_foldl_max (l : List Nat) (a : Nat) : ∀ x ∈ l, x ≤ l.foldl max a := by
  induction l generalizing a with
  | nil => intro x hx; cases hx
  | cons b t ih =>
      intro x hx
      rcases List.mem_cons.mp hx with rfl | hx
      · exact le_trans (Nat.le_max_right a x) (le_foldl_max t (max a x))
      · exact ih (max a b) x hx

theorem foldl_max_mem (l : List Nat) (a : Nat) : l.foldl max a = a ∨ l.foldl max a ∈ l := by
  induction l generalizing a with
  | nil => exact Or.inl rfl
  | cons b t ih =>
      rcases ih (max a b) with h | h
      · rcases max_choice a b with hm | hm
        · left
          simp only [List.foldl_cons]
          rw [hm] at h ⊢
          exact h
        · right
          simp only [List.foldl_cons]
          rw [hm] at h ⊢
          rw [h]
          exact List.mem_cons_self b t
      · exact Or.inr (List.mem_cons_of_mem b h)

theorem checkRun_fst_snd (lookup : EntryConfig → Option Int) (w f : Int)
    (entries : List EntryConfig) (acc : List CertState × Nat) :
    (entries.foldl (checkStep lookup w f) acc).2 =
      (entries.map fun e => stateCode (checkEntry lookup w f e)).foldl max acc.2 := by
  induction entries generalizing acc with
  | nil => rfl
  | cons e t ih => simpa [checkStep] using ih (checkStep lookup w f acc e)

theorem keepFirst_go (l : List String) : ∀ (acc seen : List String),
    (∀ x, x ∈ seen ↔ x ∈ acc) →
    l.foldl (fun acc d => if d ∈ acc then acc else acc ++ [d]) acc =
      acc ++ dedupFirstAux seen l := by
  induction l with
  | nil => intro acc seen _; simp [dedupFirstAux]
  | cons d t ih =>
      intro acc seen hiff
      by_cases hd : d ∈ acc
      · have hds : d ∈ seen := (hiff d).mpr hd
        simp only [List.foldl_cons, dedupFirstAux, hd, hds, if_true]
        exact ih acc seen hiff
      · have hds : d ∉ seen := fun h => hd ((hiff d).mp h)
        simp only [List.foldl_cons, dedupFirstAux, hd, hds, if_false]
        rw [ih (acc ++ [d]) (d :: seen) ?_]
        · simp
        · intro x
          simp only [List.mem_cons, List.mem_append, List.mem_singleton, hiff x]
          tauto

theorem validateEntry_dumpEntry (e : EntryConfig) : validateEntry (dumpEntry e) = .ok e := by
  cases e
  rfl

theorem mapM_validate_dump (l : List EntryConfig) :
    (l.map dumpEntry).mapM validateEntry = .ok l := by
  induction l with
  | nil => rfl
  | cons e t ih =>
      simp only [List.map_cons, List.mapM_cons, validateEntry_dumpEntry, ih]
      rfl

theorem refMissingOf_eq_some (env : Env) (v : Option String) (k : String) :
    refMissingOf env v = some k ↔
      ∃ s, v = some s ∧ s ≠ "" ∧ is_env_ref s = true ∧ env_ref_key s = k ∧ env k = "" := by
  cases v with
  | none => simp [refMissingOf]
  | some s =>
      simp only [refMissingOf]
      by_cases hs : s = ""
      · simp [hs]
      · simp only [hs, if_false]
        by_cases hr : is_env_ref s
        · simp only [hr, if_true]
          by_cases he : env (env_ref_key s) = ""
          · simp only [he, if_true]
            constructor
            · rintro h
              injection h with h
              exact ⟨s, rfl, hs, hr, h, h ▸ he⟩
            · rintro ⟨s2, hs2, -, -, hk, -⟩
              injection hs2 with hs2
              subst hs2
              exact congrArg some hk
          · simp only [he, if_false]
            constructor
            · rintro h; cases h
            · rintro ⟨s2, hs2, -, -, hk, hke⟩
              injection hs2 with hs2
              subst hs2
              exact absurd (hk ▸ hke) he
        · simp only [hr, if_false]
          constructor
          · rintro h; cases h
          · rintro ⟨s2, hs2, -, hr2, -, -⟩
            injection hs2 with hs2
            subst hs2
            exact absurd hr2 (by simpa using hr)

theorem mem_missingRefKeys (c : CredentialsConfig) (env : Env) (k : String) :
    k ∈ missingRefKeys c env ↔
      ∃ s, some s ∈ credValues c ∧ s ≠ "" ∧ is_env_ref s = true ∧
        env_ref_key s = k ∧ env k = "" := by
  unfold missingRefKeys
  rw [List.mem_filterMap]
  constructor
  · rintro ⟨v, hv, hvk⟩
    rcases (refMissingOf_eq_some env v k).mp hvk with ⟨s, rfl, h1, h2, h3, h4⟩
    exact ⟨s, hv, h1, h2, h3, h4⟩
  · rintro ⟨s, hv, h1, h2, h3, h4⟩
    exact ⟨some s, hv, (refMissingOf_eq_some env (some s) k).mpr ⟨s, rfl, h1, h2, h3, h4⟩⟩

theorem refMissingOf_untruthy (env : Env) (v : Option String) (h : truthy v = false) :
    refMissingOf env v = none := by
  cases v with
  | none => rfl
  | some s =>
      have hs : s = "" := by simpa [truthy] using h
      simp [refMissingOf, hs]

theorem missingRefKeys_untruthy (c : CredentialsConfig) (env : Env)
    (h1 : truthy c.access_key_id = false) (h2 : truthy c.access_key_secret = false)
    (h3 : truthy c.api_token = false) :
    missingRefKeys c env = [] := by
  unfold missingRefKeys credValues
  simp [refMissingOf_untruthy env _ h1, refMissingOf_untruthy env _ h2,
    refMissingOf_untruthy env _ h3]

theorem hasAnyPlainCredential_untruthy (c : CredentialsConfig)
    (h1 : truthy c.access_key_id = false) (h2 : truthy c.access_key_secret = false)
    (h3 : truthy c.api_token = false) :
    hasAnyPlainCredential c = false := by
  simp [hasAnyPlainCredential, h1, h2, h3]

theorem string_ne_of_length_ne (a b : String) (h : a.length ≠ b.length) : a ≠ b :=
  fun e => h (by rw [e])

theorem append_suffix_ne (p a s t : String) (h : s.length ≠ t.length) :
    p ++ a ++ s ≠ p ++ a ++ t := by
  apply string_ne_of_length_ne
  simp only [String.length_append]
  omega

theorem providerRequiredKeys_nodup (p a : String) (keys : List String)
    (h : providerRequiredKeys p a = some keys) : keys.Nodup := by
  unfold providerRequiredKeys at h
  split at h
  · injection h with h
    subst h
    simp
  · split at h
    · injection h with h
      subst h
      refine List.nodup_cons.mpr ⟨?_, List.nodup_cons.mpr ⟨?_, List.nodup_singleton _⟩⟩
      · intro hmem
        rcases List.mem_cons.mp hmem with he | he
        · exact append_suffix_ne "CERTMAN_AWS_" a "_ACCESS_KEY_ID" "_SECRET_ACCESS_KEY"
            (by decide) he
        · rcases List.mem_singleton.mp he with he
          exact append_suffix_ne "CERTMAN_AWS_" a "_ACCESS_KEY_ID" "_REGION"
            (by decide) he
      · intro hmem
        rcases List.mem_singleton.mp hmem with he
        exact append_suffix_ne "CERTMAN_AWS_" a "_SECRET_ACCESS_KEY" "_REGION"
          (by decide) he
    · split at h
      · injection h with h
        subst h
        refine List.nodup_cons.mpr ⟨?_, List.nodup_singleton _⟩
        intro hmem
        rcases List.mem_singleton.mp hmem with he
        exact append_suffix_ne "CERTMAN_ALIYUN_" a "_ACCESS_KEY_ID" "_ACCESS_KEY_SECRET"
          (by decide) he
      · cases h

theorem filter_update_erase (keys : List String) (hnd : keys.Nodup) (k : String)
    (hk : k ∈ keys) (env : Env) (hkE : env k = "") (v : String) (hv : v ≠ "") :
    (keys.filter fun x => envSet env k v x == "") =
      (keys.filter fun x => env x == "").erase k := by
  induction keys with
  | nil => cases hk
  | cons a t ih =>
      rcases List.nodup_cons.mp hnd with ⟨hna, hnt⟩
      by_cases hak : a = k
      · subst hak
        have hpk : (env a == "") = true := by simp [hkE]
        have hset : envSet env a v a = v := by simp [envSet]
        have hvne : (envSet env a v a == "") = false := by
          rw [hset]
          simpa using hv
        rw [List.filter_cons, List.filter_cons, hpk, hvne]
        simp only [if_true, if_false]
        rw [List.erase_cons_head]
        apply List.filter_congr
        intro x hx
        have hxa : x ≠ a := fun hxe => hna (hxe ▸ hx)
        simp [envSet, hxa]
      · have hk2 : k ∈ t := by
          rcases List.mem_cons.mp hk with he | he
          · exact absurd he.symm hak
          · exact he
        have hsa : envSet env k v a = env a := by simp [envSet, hak]
        by_cases hpa : (env a == "") = true
        · rw [List.filter_cons, List.filter_cons, hpa]
          have : (envSet env k v a == "") = true := by rw [hsa]; exact hpa
          rw [this]
          simp only [if_true]
          rw [List.erase_cons_tail (by simp [hak])]
          rw [ih hnt hk2]
        · rw [List.filter_cons, List.filter_cons]
          have hpa2 : (env a == "") = false := Bool.eq_false_iff.mpr hpa
          have : (envSet env k v a == "") = false := by rw [hsa]; exact hpa2
          rw [hpa2, this]
          simp only [Bool.false_eq_true, if_false]
          exact ih hnt hk2

theorem executeFixActions_front (exec : FixAction → Bool) (l : List FixAction) :
    ∃ t, executeFixActions exec l ++ t = l := by
  induction l with
  | nil => exact ⟨[], rfl⟩
  | cons a rest ih =>
      by_cases ha : exec a = true
      · rcases ih with ⟨t, ht⟩
        exact ⟨t, by simp [executeFixActions, ha, ht]⟩
      · have ha2 : exec a = false := Bool.eq_false_iff.mpr ha
        exact ⟨rest, by simp [executeFixActions, ha2]⟩

theorem executeFixActions_all_ok (exec : FixAction → Bool) (l : List FixAction)
    (h : ∀ a ∈ l, exec a = true) : executeFixActions exec l = l := by
  induction l with
  | nil => rfl
  | cons a rest ih =>
      have ha := h a (List.mem_cons_self a rest)
      simp [executeFixActions, ha, ih fun b hb => h b (List.mem_cons_of_mem a hb)]

theorem executeFixActions_stops (exec : FixAction → Bool) :
    ∀ (l1 : List FixAction) (a : FixAction) (l2 : List FixAction),
    (∀ b ∈ l1, exec b = true) → exec a = false →
    executeFixActions exec (l1 ++ a :: l2) = l1 ++ [a] := by
  intro l1
  induction l1 with
  | nil =>
      intro a l2 _ ha
      simp [executeFixActions, ha]
  | cons b t ih =>
      intro a l2 hall ha
      have hb := hall b (List.mem_cons_self b t)
      have hstep : executeFixActions exec (b :: (t ++ a :: l2)) =
          b :: executeFixActions exec (t ++ a :: l2) := by
        simp [executeFixActions, hb]
      rw [List.cons_append, hstep,
        ih a l2 (fun c hc => hall c (List.mem_cons_of_mem b hc)) ha, List.cons_append]

theorem planFixActions_cons (r : String × CertState) (rest : List (String × CertState)) :
    planFixActions (r :: rest) =
      (match r.2 with
        | CertState.missing => [FixAction.issueNew r.1]
        | CertState.forceRenew => [FixAction.renewEntry r.1]
        | _ => []) ++ planFixActions rest := by
  cases r with
  | mk n st => cases st <;> simp [planFixActions]

theorem planFixActions_order (results : List (String × CertState)) :
    planFixActions results =
      (results.filter fun r => r.2 == CertState.missing || r.2 == CertState.forceRenew).map
        fun r => if r.2 == CertState.missing then .issueNew r.1 else .renewEntry r.1 := by
  induction results with
  | nil => rfl
  | cons r rest ih =>
      rw [planFixActions_cons, List.filter_cons]
      cases r with
      | mk n st =>
          cases st <;> simp only [] <;> rw [ih] <;> simp

theorem required_env_keys_error_iff (e : EntryConfig) (env : Env) :
    (∃ err, required_env_keys e env = .error err) ↔
      accountPathUnknownProvider env e = true := by
  unfold required_env_keys accountPathUnknownProvider
  by_cases hm : missingRefKeys e.credentials env = []
  · by_cases hp : hasAnyPlainCredential e.credentials = true
    · simp [hm, hp]
    · have hp2 : hasAnyPlainCredential e.credentials = false := Bool.eq_false_iff.mpr hp
      by_cases ha : truthy e.account_id = true
      · simp only [hm, hp2, ha]
        cases hpk : providerRequiredKeys (pyLower e.dns_provider) (e.account_id.getD "") with
        | none => simp [hm, hp2, ha, hpk, List.isEmpty_iff]
        | some keys => simp [hm, hp2, ha, hpk, List.isEmpty_iff]
      · have ha2 : truthy e.account_id = false := Bool.eq_false_iff.mpr ha
        simp [hm, hp2, ha2, List.isEmpty_iff]
  · simp [hm, List.isEmpty_iff]

theorem required_env_keys_error_shape (e : EntryConfig) (env : Env)
    (err : ValidationError) (h : required_env_keys e env = .error err) :
    err = .unsupportedProvider e.dns_provider := by
  unfold required_env_keys at h
  by_cases h1 : missingRefKeys e.credentials env ≠ [] ∨ hasAnyPlainCredential e.credentials = true
  · rw [if_pos h1] at h
    cases h
  · rw [if_neg h1] at h
    by_cases h2 : truthy e.account_id = false
    · rw [if_pos h2] at h
      cases h
    · rw [if_neg h2] at h
      cases hpk : providerRequiredKeys (pyLower e.dns_provider) (e.account_id.getD "") with
      | some req =>
          rw [hpk] at h
          cases h
      | none =>
          rw [hpk] at h
          injection h with h
          exact h.symm

theorem collectMissing_error_iff (env : Env) (entries : List EntryConfig) :
    (∃ err, collectMissing env entries = .error err) ↔
      ∃ e ∈ entries, accountPathUnknownProvider env e = true := by
  induction entries with
  | nil => simp [collectMissing]
  | cons e rest ih =>
      simp only [collectMissing]
      cases he : required_env_keys e env with
      | error err =>
          simp only [List.mem_cons]
          constructor
          · intro _
            exact ⟨e, Or.inl rfl, (required_env_keys_error_iff e env).mp ⟨err, he⟩⟩
          · intro _
            exact ⟨err, rfl⟩
      | ok m =>
          cases hr : collectMissing env rest with
          | error err2 =>
              simp only [List.mem_cons]
              constructor
              · intro _
                rcases ih.mp ⟨err2, hr⟩ with ⟨e2, he2, hu⟩
                exact ⟨e2, Or.inr he2, hu⟩
              · intro _
                exact ⟨err2, rfl⟩
          | ok ms =>
              simp only [List.mem_cons]
              constructor
              · rintro ⟨err, herr⟩
                cases herr
              · rintro ⟨e2, he2, hu⟩
                rcases he2 with rfl | he2
                · rcases (required_env_keys_error_iff e2 env).mpr hu with ⟨err, herr⟩
                  rw [he] at herr
                  cases herr
                · rcases ih.mpr ⟨e2, he2, hu⟩ with ⟨err, herr⟩
                  rw [hr] at herr
                  cases herr

theorem collectMissing_error_shape (env : Env) (entries : List EntryConfig)
    (err : ValidationError) (h : collectMissing env entries = .error err) :
    ∃ n, err = .unsupportedProvider n := by
  induction entries with
  | nil => cases h
  | cons e rest ih =>
      simp only [collectMissing] at h
      cases he : required_env_keys e env with
      | error err2 =>
          rw [he] at h
          injection h with h
          subst h
          exact ⟨e.dns_provider, required_env_keys_error_shape e env err2 he⟩
      | ok m =>
          rw [he] at h
          cases hr : collectMissing env rest with
          | error err3 =>
              rw [hr] at h
              injection h with h
              subst h
              exact ih hr
          | ok ms =>
              rw [hr] at h
              cases h

/-- Claim C6 (amended): secret validation fails with an unsupported-provider
error exactly when some entry reaches the account-based branch with an
unknown provider, that is, the entry has no plain credential, no missing
referenced variable, and a truthy account id while its provider is outside
the known set; an unknown-provider entry that does not reach that branch is
skipped and the run succeeds or fails on other grounds. When the error is
raised it aborts the whole validation call. -/
theorem unsupported_provider_scope (entries : List EntryConfig) (env : Env) :
    (∃ n, validate_required_secrets entries env = .error (.unsupportedProvider n)) ↔
      ∃ e ∈ entries, accountPathUnknownProvider env e = true := by
  unfold validate_required_secrets
  cases hc : collectMissing env entries with
  | error err =>
      constructor
      · intro _
        exact (collectMissing_error_iff env entries).mp ⟨err, hc⟩
      · intro _
        rcases collectMissing_error_shape env entries err hc with ⟨n, rfl⟩
        exact ⟨n, rfl⟩
  | ok missing =>
      cases missing with
      | nil =>
          constructor
          · rintro ⟨n, hn⟩
            simp at hn
          · rintro ⟨e, hmem, hu⟩
            rcases (collectMissing_error_iff env entries).mpr ⟨e, hmem, hu⟩ with ⟨err, herr⟩
            rw [hc] at herr
            cases herr
      | cons m ms =>
          constructor
          · rintro ⟨n, hn⟩
            simp at hn
          · rintro ⟨e, hmem, hu⟩
            rcases (collectMissing_error_iff env entries).mpr ⟨e, hmem, hu⟩ with ⟨err, herr⟩
            rw [hc] at herr
            cases herr

theorem resolve_value_eq_spec (env : Env) (s : String) :
    resolve_value env s = specResolveOne env s := by
  unfold resolve_value specResolveOne specRefKey
  by_cases hc : (strHasFront "$\x7b" (pyStrip s) && strHasBack "\x7d" (pyStrip s)) = true
  · rw [if_pos hc]
    simp only [hc, if_true]
  · have hc2 : (strHasFront "$\x7b" (pyStrip s) && strHasBack "\x7d" (pyStrip s)) = false :=
      Bool.eq_false_iff.mpr hc
    rw [if_neg hc]
    simp only [hc2, Bool.false_eq_true, if_false]

/-- Claim C5 (amended): the credential resolver follows the stated
precedence, with one correction: a literal credential does not pass through
verbatim but with surrounding whitespace stripped (and reference detection
also happens after stripping). The resolver coincides with the
specification-side model that states this precedence: explicit pair first,
each field resolved independently with missing-variable errors for unset or
empty references, then account-convention variables whose absence is an
error, otherwise a credential configuration error. -/
theorem credential_resolver_precedence (env : Env) (e : EntryConfig) :
    aliyun_credentials_for_entry env e = specResolveCredentials env e := by
  unfold aliyun_credentials_for_entry specResolveCredentials
  by_cases h1 : (truthy e.credentials.access_key_id &&
      truthy e.credentials.access_key_secret) = true
  · simp only [h1, if_true]
    rw [resolve_value_eq_spec, resolve_value_eq_spec]
    cases hi : specResolveOne env (e.credentials.access_key_id.getD "") with
    | ok iv =>
        cases hs : specResolveOne env (e.credentials.access_key_secret.getD "") with
        | ok sv => rfl
        | error er => rfl
    | error er => rfl
  · have h1f : (truthy e.credentials.access_key_id &&
        truthy e.credentials.access_key_secret) = false := Bool.eq_false_iff.mpr h1
    simp only [h1f, Bool.false_eq_true, if_false]
    by_cases h2 : truthy e.account_id = true
    · rw [if_neg (show ¬ (truthy e.account_id = false) by simp [h2])]
      rw [if_pos h2]
      by_cases h3 : env ("CERTMAN_ALIYUN_" ++ e.account_id.getD "" ++ "_ACCESS_KEY_ID") = "" ∨
          env ("CERTMAN_ALIYUN_" ++ e.account_id.getD "" ++ "_ACCESS_KEY_SECRET") = ""
      · rw [if_pos h3, if_neg]
        rintro ⟨hx, hy⟩
        rcases h3 with h3 | h3
        · exact hx h3
        · exact hy h3
      · rw [if_neg h3, if_pos ⟨fun ha => h3 (Or.inl ha), fun hb => h3 (Or.inr hb)⟩]
        rfl
    · have h2f : truthy e.account_id = false := Bool.eq_false_iff.mpr h2
      simp [h2f]

/-! ## Claim theorems -/

/-- Claim C1: for every run of the check operation over a list of entries,
the aggregate process exit code equals the maximum per-entry weight, with ok
weighing 0, warn 10, force-renew 20 and missing 30; the exit code is 0 when
the entries list is empty. -/
theorem check_exit_code_aggregates (lookup : EntryConfig → Option Int) (w f : Int)
    (entries : List EntryConfig) :
    (stateCode CertState.ok = 0 ∧ stateCode CertState.warn = 10 ∧
      stateCode CertState.forceRenew = 20 ∧ stateCode CertState.missing = 30) ∧
    (entries = [] → checkExitCode lookup w f entries = 0) ∧
    (∀ e ∈ entries, stateCode (checkEntry lookup w f e) ≤ checkExitCode lookup w f entries) ∧
    (entries ≠ [] →
      ∃ e ∈ entries, checkExitCode lookup w f entries = stateCode (checkEntry lookup w f e)) := by
  have hfold : checkExitCode lookup w f entries =
      (entries.map fun e => stateCode (checkEntry lookup w f e)).foldl max 0 := by
    unfold checkExitCode checkRun
    exact checkRun_fst_snd lookup w f entries ([], 0)
  refine ⟨⟨rfl, rfl, rfl, rfl⟩, ?_, ?_, ?_⟩
  · rintro rfl
    rfl
  · intro e he
    rw [hfold]
    exact mem_le_foldl_max _ 0 _ (List.mem_map_of_mem _ he)
  · intro hne
    rw [hfold]
    rcases foldl_max_mem (entries.map fun e => stateCode (checkEntry lookup w f e)) 0 with h | h
    · cases entries with
      | nil => exact absurd rfl hne
      | cons e t =>
          refine ⟨e, List.mem_cons_self e t, ?_⟩
          have hle := mem_le_foldl_max
            ((e :: t).map fun e2 => stateCode (checkEntry lookup w f e2)) 0
            (stateCode (checkEntry lookup w f e))
            (List.mem_map_of_mem _ (List.mem_cons_self e t))
          rw [h] at hle ⊢
          exact (Nat.le_zero.mp hle).symm
    · rcases List.mem_map.mp h with ⟨e, he, heq⟩
      exact ⟨e, he, heq.symm⟩

/-- Witness for C1 at a concrete run with one warn entry and one missing
entry. -/
theorem check_exit_code_aggregates_witness :
    ([entryA, entryB] : List EntryConfig) ≠ [] ∧
    ∃ e ∈ [entryA, entryB],
      checkExitCode lookupAB 30 7 [entryA, entryB] = stateCode (checkEntry lookupAB 30 7 e) :=
  ⟨by decide,
   (check_exit_code_aggregates lookupAB 30 7 [entryA, entryB]).2.2.2 (by decide)⟩

/-- Counterexample to claim C2 as stated: the claim quantifies over all
integer thresholds, but with warnDays 5 and forceRenewDays 10 an entry whose
certificate has exactly warnDays days left classifies as force-renew, not as
warn, because the force-renew comparison is checked first. -/
theorem warn_boundary_counterexample :
    checkEntry lookupFive 5 10 entryA = CertState.forceRenew ∧
    checkEntry lookupFive 5 10 entryA ≠ CertState.warn := by
  constructor
  · rfl
  · decide

/-- Claim C2 (amended): for every entry with an existing certificate,
days_left exactly equal to forceRenewDays always classifies as force-renew;
days_left exactly equal to warnDays classifies as warn provided
forceRenewDays is strictly below warnDays, and in every case it never
classifies as ok. -/
theorem classify_boundary_amended (lookup : EntryConfig → Option Int) (e : EntryConfig)
    (w f d : Int) (h : lookup e = some d) :
    (d = f → checkEntry lookup w f e = CertState.forceRenew) ∧
    (d = w → f < w → checkEntry lookup w f e = CertState.warn) ∧
    (d = w → checkEntry lookup w f e ≠ CertState.ok) := by
  have hcl : checkEntry lookup w f e = classify d w f := by
    unfold checkEntry
    rw [h]
  rw [hcl]
  refine ⟨?_, ?_, ?_⟩
  · rintro rfl
    unfold classify
    rw [if_pos (le_refl d)]
  · rintro rfl hfw
    unfold classify
    rw [if_neg (by omega), if_pos (le_refl d)]
  · rintro rfl
    unfold classify
    by_cases hdf : d ≤ f
    · rw [if_pos hdf]
      intro hc
      cases hc
    · rw [if_neg hdf, if_pos (le_refl d)]
      intro hc
      cases hc

/-- Witness for the amended C2 at concrete thresholds. -/
theorem classify_boundary_amended_witness :
    checkEntry lookupFive 30 5 entryA = CertState.forceRenew ∧
    checkEntry lookupFive 5 0 entryA = CertState.warn :=
  ⟨(classify_boundary_amended lookupFive entryA 30 5 5 rfl).1 rfl,
   (classify_boundary_amended lookupFive entryA 5 0 5 rfl).2.1 rfl (by decide)⟩

/-- Claim C3: when some credential field of an entry is a literal non-empty
value, required_env_keys returns exactly the missing referenced keys of that
entry, so no account-convention key is contributed even when account_id is
set, while reference fields are still checked: the returned keys are exactly
the referenced names whose variables are unset or empty. -/
theorem plain_credential_short_circuits (e : EntryConfig) (env : Env)
    (h : hasAnyPlainCredential e.credentials = true) :
    required_env_keys e env = .ok (missingRefKeys e.credentials env) ∧
    ∀ k, k ∈ missingRefKeys e.credentials env ↔
      ∃ s, some s ∈ credValues e.credentials ∧ s ≠ "" ∧ is_env_ref s = true ∧
        env_ref_key s = k ∧ env k = "" := by
  constructor
  · unfold required_env_keys
    rw [if_pos (Or.inr h)]
  · exact fun k => mem_missingRefKeys e.credentials env k

/-- Witness for C3: an entry with a literal access key id, a referenced
secret whose variable is unset, and an account id, contributes exactly the
referenced name and none of the account keys. -/
theorem plain_credential_short_circuits_witness :
    required_env_keys entryPlainAndRef env0 =
      .ok (missingRefKeys entryPlainAndRef.credentials env0) ∧
    missingRefKeys entryPlainAndRef.credentials env0 = ["FOO"] :=
  ⟨(plain_credential_short_circuits entryPlainAndRef env0 (by decide)).1, by decide⟩

/-- Claim C4: for an entry with account_id set and no credential field
populated, required_env_keys returns exactly the provider-convention key set
minus the keys already set in the environment, and setting one previously
unset required key removes exactly that key from the result. -/
theorem account_only_required_keys (e : EntryConfig) (env : Env)
    (h1 : truthy e.credentials.access_key_id = false)
    (h2 : truthy e.credentials.access_key_secret = false)
    (h3 : truthy e.credentials.api_token = false)
    (account : String) (ha : e.account_id = some account) (hane : account ≠ "")
    (keys : List String)
    (hk : providerRequiredKeys (pyLower e.dns_provider) account = some keys) :
    (required_env_keys e env = .ok (keys.filter fun k => env k == "")) ∧
    (∀ k, k ∈ (keys.filter fun k2 => env k2 == "") ↔ (k ∈ keys ∧ env k = "")) ∧
    (∀ k ∈ keys, env k = "" → ∀ v, v ≠ "" →
      required_env_keys e (envSet env k v) =
        .ok ((keys.filter fun k2 => env k2 == "").erase k)) := by
  have hmain : ∀ env2 : Env,
      required_env_keys e env2 = .ok (keys.filter fun k => env2 k == "") := by
    intro env2
    unfold required_env_keys
    have hm := missingRefKeys_untruthy e.credentials env2 h1 h2 h3
    have hp := hasAnyPlainCredential_untruthy e.credentials h1 h2 h3
    rw [if_neg (by simp [hm, hp])]
    rw [if_neg (by simp [truthy, ha, hane])]
    rw [ha]
    simp only [Option.getD_some]
    rw [hk]
  refine ⟨hmain env, ?_, ?_⟩
  · intro k
    simp [List.mem_filter]
  · intro k hkmem hkE v hv
    rw [hmain (envSet env k v)]
    rw [filter_update_erase keys (providerRequiredKeys_nodup _ _ _ hk) k hkmem env hkE v hv]

/-- Witness for C4: the aliyun account entry under the empty environment
requires both convention keys; setting the first key removes exactly it. -/
theorem account_only_required_keys_witness :
    required_env_keys entryAcct env0 =
      .ok ["CERTMAN_ALIYUN_A1_ACCESS_KEY_ID", "CERTMAN_ALIYUN_A1_ACCESS_KEY_SECRET"] ∧
    required_env_keys entryAcct (envSet env0 "CERTMAN_ALIYUN_A1_ACCESS_KEY_ID" "x") =
      .ok ["CERTMAN_ALIYUN_A1_ACCESS_KEY_SECRET"] := by
  have h := account_only_required_keys entryAcct env0 (by decide) (by decide) (by decide)
    "A1" rfl (by decide)
    ["CERTMAN_ALIYUN_A1_ACCESS_KEY_ID", "CERTMAN_ALIYUN_A1_ACCESS_KEY_SECRET"] (by decide)
  constructor
  · rw [h.1]
    rfl
  · rw [h.2.2 "CERTMAN_ALIYUN_A1_ACCESS_KEY_ID" (by decide) rfl "x" (by decide)]
    rfl

/-- Counterexample to claim C5 as stated: a whitespace-padded literal access
key id is stripped by the resolver, so a literal does not pass through
verbatim. -/
theorem literal_not_verbatim_counterexample :
    aliyun_credentials_for_entry env0 entryPadded =
      .ok { access_key_id := "padded-id", access_key_secret := "sec" } ∧
    entryPadded.credentials.access_key_id = some " padded-id " ∧
    ("padded-id" : String) ≠ " padded-id " := by
  refine ⟨rfl, rfl, by decide⟩

/-- Counterexample to claim C6 as stated: a merged configuration containing
an entry with an unknown dns_provider but neither credentials nor account id
passes secret validation instead of failing with an unsupported-provider
error. -/
theorem unknown_provider_skipped_counterexample :
    validate_required_secrets [entryUnknownProv] env0 = .ok () ∧
    entryUnknownProv.dns_provider ≠ "cloudflare" ∧
    entryUnknownProv.dns_provider ≠ "route53" ∧
    entryUnknownProv.dns_provider ≠ "aliyun" := by
  refine ⟨rfl, by decide, by decide, by decide⟩

/-- Counterexample to claim C7 as stated: with two planned actions and an
executor whose first action raises, the second planned action is never
started, so a failure of one action does block the subsequent ones. -/
theorem fix_failure_blocks_counterexample :
    FixAction.issueNew "b" ∈ planFixActions resultsCE ∧
    execAllFail (FixAction.issueNew "a") = false ∧
    FixAction.issueNew "b" ∉ executeFixActions execAllFail (planFixActions resultsCE) := by
  refine ⟨by decide, rfl, by decide⟩

/-- Claim C7 (amended): planned remediation actions follow the order of the
results list (missing plans a forced new, force-renew plans a forced renew),
and they are executed in plan order; execution is not independent across
entries: when every action succeeds all are executed, but the first failing
action ends the loop, so the executed actions are always a front segment of
the plan ending at the first failure. -/
theorem fix_execution_order_amended (results : List (String × CertState))
    (exec : FixAction → Bool) :
    (planFixActions results =
      (results.filter fun r => r.2 == CertState.missing || r.2 == CertState.forceRenew).map
        fun r => if r.2 == CertState.missing then FixAction.issueNew r.1
          else FixAction.renewEntry r.1) ∧
    (∃ t, executeFixActions exec (planFixActions results) ++ t = planFixActions results) ∧
    ((∀ a ∈ planFixActions results, exec a = true) →
      executeFixActions exec (planFixActions results) = planFixActions results) ∧
    (∀ l1 a l2, planFixActions results = l1 ++ a :: l2 →
      (∀ b ∈ l1, exec b = true) → exec a = false →
      executeFixActions exec (planFixActions results) = l1 ++ [a]) := by
  refine ⟨planFixActions_order results, executeFixActions_front exec _,
    executeFixActions_all_ok exec _, ?_⟩
  intro l1 a l2 hplan hall ha
  rw [hplan]
  exact executeFixActions_stops exec l1 a l2 hall ha

/-- Witness for the amended C7: under the all-failing executor only the
first planned action is started. -/
theorem fix_execution_order_amended_witness :
    executeFixActions execAllFail (planFixActions resultsCE) = [FixAction.issueNew "a"] := by
  have h := (fix_execution_order_amended resultsCE execAllFail).2.2.2
    [] (FixAction.issueNew "a") [FixAction.issueNew "b"] (by decide) (by simp) rfl
  simpa using h

/-- Claim C8: merging a global config with zero matching item files yields
exactly the global entries in their original order; the dump and revalidate
round trip of the merge step is the identity on well-typed entries. -/
theorem merge_no_items_round_trip (base : List EntryConfig) (globalName : String) :
    load_merged_config base globalName [] = .ok base := by
  unfold load_merged_config
  simp only [List.map_nil, List.flatten_nil, List.append_nil]
  exact mapM_validate_dump base

/-- Claim C9: the issuance domain list is the primary domain, then the
secondary domains in configured order, then the wildcard domain when the
wildcard flag is set, deduplicated keeping first occurrences; in particular
the primary domain is always the first element. -/
theorem entry_domains_construction (e : EntryConfig) :
    entry_domains e =
      keepFirst (e.primary_domain :: (e.secondary_domains ++
        (if e.wildcard then ["*." ++ e.primary_domain] else []))) ∧
    (entry_domains e).head? = some e.primary_domain := by
  have hk : ∀ l : List String, keepFirst l = dedupFirstAux [] l := by
    intro l
    unfold keepFirst
    simpa using keepFirst_go l [] [] (by simp)
  constructor
  · unfold entry_domains
    rw [hk]
    rfl
  · unfold entry_domains
    simp only [dedupFirstAux, List.not_mem_nil, if_false]
    rfl

/-- Claim C10: for an entry with account_id, no literal credential and at
least one referenced credential, a missing referenced variable makes
required_env_keys return exactly the missing referenced names, with no
account-convention contribution; when every referenced variable is set the
account-convention keys are still required. -/
theorem reference_interaction_with_account (e : EntryConfig) (env : Env)
    (hplain : hasAnyPlainCredential e.credentials = false)
    (_href : hasRefCredential e.credentials = true)
    (account : String) (ha : e.account_id = some account) (hane : account ≠ "")
    (keys : List String)
    (hkeys : providerRequiredKeys (pyLower e.dns_provider) account = some keys) :
    (missingRefKeys e.credentials env ≠ [] →
      required_env_keys e env = .ok (missingRefKeys e.credentials env) ∧
      ∀ k, k ∈ missingRefKeys e.credentials env ↔
        ∃ s, some s ∈ credValues e.credentials ∧ s ≠ "" ∧ is_env_ref s = true ∧
          env_ref_key s = k ∧ env k = "") ∧
    (missingRefKeys e.credentials env = [] →
      required_env_keys e env = .ok (keys.filter fun k => env k == "")) := by
  constructor
  · intro hm
    refine ⟨?_, fun k => mem_missingRefKeys e.credentials env k⟩
    unfold required_env_keys
    rw [if_pos (Or.inl hm)]
  · intro hm
    unfold required_env_keys
    rw [if_neg (by simp [hm, hplain])]
    rw [if_neg (by simp [truthy, ha, hane])]
    rw [ha]
    simp only [Option.getD_some]
    rw [hkeys]

/-- Witness for C10: the reference-and-account entry reports exactly the
missing referenced name under the empty environment, and the two aliyun
account keys once the referenced variable is set. -/
theorem reference_interaction_with_account_witness :
    required_env_keys entryRefOnly env0 = .ok ["FOO"] ∧
    required_env_keys entryRefOnly envFOO =
      .ok ["CERTMAN_ALIYUN_A1_ACCESS_KEY_ID", "CERTMAN_ALIYUN_A1_ACCESS_KEY_SECRET"] := by
  have h1 := (reference_interaction_with_account entryRefOnly env0 (by decide) (by decide)
    "A1" rfl (by decide)
    ["CERTMAN_ALIYUN_A1_ACCESS_KEY_ID", "CERTMAN_ALIYUN_A1_ACCESS_KEY_SECRET"]
    (by decide)).1 (by decide)
  have h2 := (reference_interaction_with_account entryRefOnly envFOO (by decide) (by decide)
    "A1" rfl (by decide)
    ["CERTMAN_ALIYUN_A1_ACCESS_KEY_ID", "CERTMAN_ALIYUN_A1_ACCESS_KEY_SECRET"]
    (by decide)).2 (by decide)
  constructor
  · rw [h1.1]
    rfl
  · rw [h2]
    rfl

end Certman
